import Mathlib

/-!
Verification development for the PronoiaApp repository.

Part 1 models the gap-detection and auto-snap correction engine.  The
repository ships only the engine's documentation (CLAUDE.md) together with
callers and surrounding view code; the engine's own source files
(`components/PhotoRenderer.tsx`, `components/InlinePhotoEditor.tsx`) are not
part of the available sources, so the engine is modelled from the
specification text, faithful to its formulas and policy constants.

Part 2 embeds two functions that are present in the sources:
`handleTemplateCountChange` from `src/stores/useAppStore.ts` and
`handleConfirmSwap` from the template-swap modal component.

All numeric quantities are modelled as rationals (exact arithmetic).
-/

namespace AutoSnap

/-- Modelled from the spec: an axis-aligned rectangle `{x, y, width, height}`
in a shared pixel space (spec §3 "Rectangle"). -/
structure Rect where
  x : ℚ
  y : ℚ
  width : ℚ
  height : ℚ
  deriving DecidableEq, Repr

/-- Modelled from the spec: the four-sided gap vector `{top, right, bottom,
left}` (spec §3 "GapVector"). -/
structure GapVector where
  top : ℚ
  right : ℚ
  bottom : ℚ
  left : ℚ
  deriving DecidableEq, Repr

/-- Modelled from the spec: the photo's placement within its slot
(spec §3 "Transform"): signed fractional offsets of container width/height
(origin fixed at container center, offset `(0,0)` = centered) and a positive
scale multiplier. -/
structure Transform where
  offsetXPercent : ℚ
  offsetYPercent : ℚ
  scale : ℚ
  deriving DecidableEq, Repr

/-- Modelled from the spec: `GapThreshold` policy constant, set to `0`
(spec §3): any strictly positive gap on a side counts as significant. -/
def GapThreshold : ℚ := 0

/-- Modelled from the spec: `PostSnapAllowance` policy constant, `5` px
(spec §3), used only when judging the simulated outcome of a planned
movement. -/
def PostSnapAllowance : ℚ := 5

/-- Modelled from the spec: the editor's documented initial placement scale,
`0.5` of natural size (spec §4.2, and CLAUDE.md `initialScale={0.5}`). -/
def defaultScale : ℚ := 1 / 2

/-- Modelled from the spec: the fixed default reset transform — centered
offsets, `scale = defaultScale` (spec §4.2 and §4.4). -/
def defaultTransform : Transform :=
  { offsetXPercent := 0, offsetYPercent := 0, scale := defaultScale }

/-- Modelled from the spec: the tagged outcome of the Movement Planner
(spec §3 "CorrectionPlan"): `NoOp`, `Translate{dxPercent, dyPercent}`, or
`ResetToDefault`.  Being an inductive type, exactly one variant is produced
per evaluation. -/
inductive CorrectionPlan where
  | noop : CorrectionPlan
  | translate (dxPercent dyPercent : ℚ) : CorrectionPlan
  | resetToDefault : CorrectionPlan
  deriving DecidableEq, Repr

/-- Modelled from the spec: a rectangle is degenerate when its width or
height is non-positive (spec §7 `DegenerateGeometry`). -/
def degenerate (r : Rect) : Bool :=
  decide (r.width ≤ 0) || decide (r.height ≤ 0)

/-- Modelled from the spec: the raw gap formulas of the Gap Detector
(spec §4.1), each side clamped at zero. -/
def detectGapsRaw (slotRect photoRect : Rect) : GapVector :=
  { top := max 0 (photoRect.y - slotRect.y)
    left := max 0 (photoRect.x - slotRect.x)
    right := max 0 ((slotRect.x + slotRect.width) - (photoRect.x + photoRect.width))
    bottom := max 0 ((slotRect.y + slotRect.height) - (photoRect.y + photoRect.height)) }

/-- Modelled from the spec: `detectGaps(slotRect, photoRect) -> GapVector`
(spec §4.1); `none` signals the `DegenerateGeometry` condition raised when
either rectangle has non-positive width or height. -/
def detectGaps (slotRect photoRect : Rect) : Option GapVector :=
  if degenerate slotRect || degenerate photoRect then none
  else some (detectGapsRaw slotRect photoRect)

/-- Modelled from the spec: the number of sides whose gap strictly exceeds
the threshold (spec §4.2 "count of significant sides", `gaps[side] > threshold`). -/
def significantCount (g : GapVector) (threshold : ℚ) : ℕ :=
  (if threshold < g.top then 1 else 0) + (if threshold < g.right then 1 else 0) +
    (if threshold < g.bottom then 1 else 0) + (if threshold < g.left then 1 else 0)

/-- Modelled from the spec: `planMovement(gaps, threshold) -> CorrectionPlan`
(spec §4.2).  0 significant sides → `NoOp`; 1 or 2 → `Translate` whose
components accumulate `gaps.left/slotRect.width` (moving toward the left
edge), `-gaps.right/slotRect.width`, `gaps.top/slotRect.height`, and
`-gaps.bottom/slotRect.height` over the significant sides; 3 or 4 →
`ResetToDefault`. -/
def planMovement (gaps : GapVector) (slotRect : Rect) (threshold : ℚ) : CorrectionPlan :=
  let n := significantCount gaps threshold
  if n = 0 then CorrectionPlan.noop
  else if n ≤ 2 then
    CorrectionPlan.translate
      ((if threshold < gaps.left then gaps.left / slotRect.width else 0) -
        (if threshold < gaps.right then gaps.right / slotRect.width else 0))
      ((if threshold < gaps.top then gaps.top / slotRect.height else 0) -
        (if threshold < gaps.bottom then gaps.bottom / slotRect.height else 0))
  else CorrectionPlan.resetToDefault

/-- Modelled from the spec: the rendered photo rectangle shifted by a planned
translation.  The spec fixes the sign convention by demanding that a left
gap's correction `+gaps.left/slotRect.width` closes the left gap (spec §4.2
directional invariant), so increasing `dxPercent` moves the rendered
rectangle toward the slot's left edge: `x` decreases by
`dxPercent * slotRect.width`, and symmetrically for `y`. -/
def shiftRect (photoRect : Rect) (dxPercent dyPercent : ℚ) (slotRect : Rect) : Rect :=
  { photoRect with
      x := photoRect.x - dxPercent * slotRect.width
      y := photoRect.y - dyPercent * slotRect.height }

/-- Modelled from the spec: `detectPostSnapGaps` — the gap vector that would
result from applying the planned translation (spec §4.3, CLAUDE.md). -/
def detectPostSnapGaps (slotRect photoRect : Rect) (dxPercent dyPercent : ℚ) : GapVector :=
  detectGapsRaw slotRect (shiftRect photoRect dxPercent dyPercent slotRect)

/-- Modelled from the spec: the Post-Snap Validator (spec §4.3).  Only
`Translate` plans are re-examined; the simulated outcome with 3 or more
significant sides at the allowance overrides the plan to `ResetToDefault`. -/
def validate (plan : CorrectionPlan) (slotRect photoRect : Rect) (allowance : ℚ) :
    CorrectionPlan :=
  match plan with
  | CorrectionPlan.translate dx dy =>
      if 3 ≤ significantCount (detectPostSnapGaps slotRect photoRect dx dy) allowance then
        CorrectionPlan.resetToDefault
      else CorrectionPlan.translate dx dy
  | p => p

/-- Modelled from the spec: the decision trace emitted by the Finalizer for
diagnostics (spec §4.4): whether `DegenerateGeometry` was recorded, the
measured gaps, the chosen plan, and whether the validator overrode the
planner. -/
structure Trace where
  degenerateGeometry : Bool
  measuredGaps : Option GapVector
  chosenPlan : Option CorrectionPlan
  overridden : Bool
  deriving DecidableEq, Repr

/-- Modelled from the spec: applying a correction plan to a transform
(spec §4.4): `NoOp` leaves it unchanged, `Translate` increments the offsets
with scale unchanged, `ResetToDefault` substitutes the fixed default. -/
def applyPlan (t : Transform) (p : CorrectionPlan) : Transform :=
  match p with
  | CorrectionPlan.noop => t
  | CorrectionPlan.translate dx dy =>
      { t with
          offsetXPercent := t.offsetXPercent + dx
          offsetYPercent := t.offsetYPercent + dy }
  | CorrectionPlan.resetToDefault => defaultTransform

/-- Modelled from the spec: the Finalizer pipeline (spec §4.4):
detect gaps at the strict threshold → plan movement → validate at the
allowance → apply.  On degenerate geometry the current transform is returned
unchanged with `DegenerateGeometry` recorded; the function is total, so no
exception can propagate. -/
def finalize (t : Transform) (slotRect photoRect : Rect) : Transform × Trace :=
  if degenerate slotRect || degenerate photoRect then
    (t, { degenerateGeometry := true, measuredGaps := none,
          chosenPlan := none, overridden := false })
  else
    let gaps := detectGapsRaw slotRect photoRect
    let plan := planMovement gaps slotRect GapThreshold
    let finalPlan := validate plan slotRect photoRect PostSnapAllowance
    (applyPlan t finalPlan,
      { degenerateGeometry := false, measuredGaps := some gaps,
        chosenPlan := some finalPlan, overridden := decide (finalPlan ≠ plan) })

/-- Modelled from the spec: the geometry provider under stable geometry
(spec §5, §8), realising the rendered photo rectangle as a function of the
transform's offsets: the rectangle a base placement `basePhotoRect` (the
measurement at offset `(0,0)`) assumes under transform `t`, using the same
sign convention as `shiftRect`.  Scale is held fixed between the two commits
("no intervening user manipulation"). -/
def renderRect (basePhotoRect : Rect) (slotRect : Rect) (t : Transform) : Rect :=
  shiftRect basePhotoRect t.offsetXPercent t.offsetYPercent slotRect

/-- Modelled from the spec: one commit under stable geometry — `finalize`
applied to the photo rectangle rendered for the current transform. -/
def finalizeStable (t : Transform) (slotRect basePhotoRect : Rect) : Transform × Trace :=
  finalize t slotRect (renderRect basePhotoRect slotRect t)

end AutoSnap

namespace Store

/-- Embeds the first-match lookup of a key in a JS object modelled as an
association list, with the `state.templateCounts[templateId] || 0` default
of `useAppStore.ts` (an absent key reads as `0`). -/
def lookupCount : List (String × Int) → String → Int
  | [], _ => 0
  | (k', v') :: rest, k => if k' = k then v' else lookupCount rest k

/-- Embeds the object-spread update `{...state.templateCounts, [templateId]:
newCount}` of `useAppStore.ts`: an existing key keeps its position and takes
the new value, a fresh key is appended at the end. -/
def setKey : List (String × Int) → String → Int → List (String × Int)
  | [], k, v => [(k, v)]
  | (k', v') :: rest, k, v =>
      if k' = k then (k, v) :: rest else (k', v') :: setKey rest k v

/-- Embeds `handleTemplateCountChange` from `src/stores/useAppStore.ts`
(lines 227-241).  `templateCounts` is the store's count map; `selectedPackage`
carries only the `templateCount` field consumed here (via
`state.selectedPackage?.templateCount || 0`); `customLimit` is the optional
third argument. -/
def handleTemplateCountChange (templateCounts : List (String × Int))
    (selectedPackage : Option Int) (templateId : String) (change : Int)
    (customLimit : Option Int) : List (String × Int) :=
  let currentCount := lookupCount templateCounts templateId
  let newCount := max 0 (currentCount + change)
  let totalCount := (templateCounts.map Prod.snd).sum - currentCount + newCount
  let limit :=
    match customLimit with
    | some c => c
    | none => match selectedPackage with | some p => p | none => 0
  if totalCount ≤ limit then setKey templateCounts templateId newCount
  else templateCounts

end Store

namespace Swap

/-- Embeds the photo transform payload carried by a template slot.  The swap
modal only copies it verbatim between slots, so the exact field set does not
matter to the claims; it is modelled after the editor's photo placement
(scale and offsets). -/
structure PhotoTransform where
  scale : ℚ
  x : ℚ
  y : ℚ
  deriving DecidableEq, Repr

/-- Embeds the `TemplateSlot` record as consumed by the template-swap modal:
identifier, owning template id/name/type, slot index, optional photo id,
optional transform, optional print size. -/
structure TemplateSlot where
  id : String
  templateId : String
  templateName : String
  templateType : String
  slotIndex : ℕ
  photoId : Option String
  transform : Option PhotoTransform
  printSize : Option String
  deriving DecidableEq, Repr

/-- Embeds a photo hole of a manual template; `handleConfirmSwap` consumes
only the length of the hole list. -/
structure Hole where
  x : ℚ
  y : ℚ
  width : ℚ
  height : ℚ
  deriving DecidableEq, Repr

/-- Embeds the `ManualTemplate` record as consumed by the swap modal. -/
structure ManualTemplate where
  id : String
  name : String
  template_type : String
  print_size : String
  holes_data : Option (List Hole)
  deriving DecidableEq, Repr

/-- Embeds JS truthiness of an optional string: `undefined` and the empty
string are falsy. -/
def optStrTruthy : Option String → Bool
  | some s => decide (s ≠ "")
  | none => false

/-- Embeds `Array.prototype.findIndex`: index of the first match, `-1` when
there is none. -/
def findFirstIdx (p : α → Bool) : List α → Int
  | [] => -1
  | a :: rest =>
      if p a then 0
      else
        let r := findFirstIdx p rest
        if r < 0 then -1 else r + 1

/-- Embeds the `map((slot, index) => match ? index : -1).filter(i => i !==
-1).sort()` composite of `handleConfirmSwap`: the ascending list of indices
of matching elements, starting from `i`. -/
def matchIndices (p : α → Bool) : List α → ℕ → List ℕ
  | [], _ => []
  | a :: rest, i =>
      if p a then i :: matchIndices p rest (i + 1) else matchIndices p rest (i + 1)

/-- Embeds `Array.prototype.splice(start, 0, ...items)`: insertion at
`start`, clamped to the array bounds, a negative `start` counting from the
end. -/
def spliceInsert (l : List α) (start : Int) (items : List α) : List α :=
  let i : ℕ := if start < 0 then (l.length + start).toNat else min start.toNat l.length
  l.take i ++ items ++ l.drop i

/-- Embeds the first-occurrence-ordered list of distinct template ids, as
produced by the `reduce`-into-object grouping plus `Object.values` of
`handleConfirmSwap`. -/
def distinctIds (slots : List TemplateSlot) : List String :=
  slots.foldl (fun acc s => if s.templateId ∈ acc then acc else acc ++ [s.templateId]) []

/-- Embeds substring search over character lists: true when `needle` occurs
contiguously in the list. -/
def hasSub (needle : List Char) : List Char → Bool
  | [] => needle.isEmpty
  | c :: rest => needle.isPrefixOf (c :: rest) || hasSub needle rest

/-- Embeds `String.prototype.includes`. -/
def strIncludes (hay needle : String) : Bool :=
  hasSub needle.data hay.data

/-- Embeds `templateToSwap.slots[0]?.printSize || '4R'`. -/
def slotPrintSize (swapSlots : List TemplateSlot) : String :=
  match swapSlots.head? with
  | some s =>
      match s.printSize with
      | some ps => if ps = "" then "4R" else ps
      | none => "4R"
  | none => "4R"

/-- Embeds the slot-construction callback of `handleConfirmSwap`
(`Array.from({length: newSlotsCount}, (_, index) => ...)`), including the
smart photo preservation: by default new slot `index` takes old slot
`index`'s `photoId` and `transform`; when the new template has fewer slots,
slot `0` has no truthy photo and a photo-bearing old slot exists, slot `0`
takes that slot's photo and transform instead. -/
def newSlotAt (newTemplate : ManualTemplate) (swapId newTemplateName : String)
    (swapSlots : List TemplateSlot) (newSlotsCount oldSlotsCount : ℕ) (now : ℕ)
    (index : ℕ) : TemplateSlot :=
  let preservedPhoto := (swapSlots.get? index).bind TemplateSlot.photoId
  let preservedTransform := (swapSlots.get? index).bind TemplateSlot.transform
  let preserved :=
    if newSlotsCount < oldSlotsCount ∧ optStrTruthy preservedPhoto = false ∧ index = 0 then
      match swapSlots.find? (fun s => optStrTruthy s.photoId) with
      | some firstPhotoSlot => (firstPhotoSlot.photoId, firstPhotoSlot.transform)
      | none => (preservedPhoto, preservedTransform)
    else (preservedPhoto, preservedTransform)
  { id := newTemplate.id ++ "_" ++ toString now ++ "_" ++ toString index
    templateId := swapId
    templateName := newTemplateName
    templateType := newTemplate.template_type
    slotIndex := index
    photoId := preserved.1
    transform := preserved.2
    printSize := some (slotPrintSize swapSlots) }

/-- Embeds `selectedNewTemplate.holes_data?.length || 1`: the number of new
slots; an absent or empty hole list (length 0 is falsy) gives 1. -/
def newSlotsCountOf (newTemplate : ManualTemplate) : ℕ :=
  match newTemplate.holes_data with
  | some hs => if hs.length = 0 then 1 else hs.length
  | none => 1

/-- Embeds the `printNumber` computation of `handleConfirmSwap`: the position
of the swapped template among the first-occurrence-ordered template groups,
plus one (`findIndex` yields `-1` when absent). -/
def printNumberOf (templateSlots : List TemplateSlot) (swapId : String) : Int :=
  findFirstIdx (fun gid => gid == swapId) (distinctIds templateSlots) + 1

/-- Embeds the `newTemplateName` template-literal of `handleConfirmSwap`. -/
def newTemplateNameOf (templateSlots : List TemplateSlot) (swapId swapName : String)
    (newTemplate : ManualTemplate) : String :=
  if strIncludes swapName "(Additional)" then
    newTemplate.name ++ " (Additional Print #" ++
      toString (printNumberOf templateSlots swapId) ++ ")"
  else newTemplate.name ++ " (Print #" ++ toString (printNumberOf templateSlots swapId) ++ ")"

/-- Embeds the `newSlots` array of `handleConfirmSwap`
(`Array.from({length: newSlotsCount}, ...)`). -/
def newSlotsOf (templateSlots : List TemplateSlot) (swapId swapName : String)
    (swapSlots : List TemplateSlot) (newTemplate : ManualTemplate) (now : ℕ) :
    List TemplateSlot :=
  (List.range (newSlotsCountOf newTemplate)).map
    (newSlotAt newTemplate swapId (newTemplateNameOf templateSlots swapId swapName newTemplate)
      swapSlots (newSlotsCountOf newTemplate) swapSlots.length now)

/-- Embeds `handleConfirmSwap` from the template-swap modal component
(`TemplateSwapModal`): compute the swapped template's first slot index and
removal indices, build the renamed new slots from the selected template's
hole count (`holes_data?.length || 1`), remove the old slots, and splice the
new slots in at the corrected insertion index.  `now` stands for
`Date.now()`, used only in the fresh slot ids. -/
def handleConfirmSwap (templateSlots : List TemplateSlot) (swapId swapName : String)
    (swapSlots : List TemplateSlot) (newTemplate : ManualTemplate) (now : ℕ) :
    List TemplateSlot :=
  let firstSlotIndex : Int := findFirstIdx (fun s => s.templateId == swapId) templateSlots
  let slotIndicesToRemove := matchIndices (fun s => s.templateId == swapId) templateSlots 0
  let newSlots := newSlotsOf templateSlots swapId swapName swapSlots newTemplate now
  let updatedSlots := templateSlots.filter (fun s => !(s.templateId == swapId))
  let slotsRemovedBeforeInsertion :=
    (slotIndicesToRemove.filter (fun i : ℕ => decide ((i : Int) < firstSlotIndex))).length
  let correctedInsertionIndex : Int := firstSlotIndex - slotsRemovedBeforeInsertion
  spliceInsert updatedSlots correctedInsertionIndex newSlots

end Swap

section GapDetectorClaims

/-- C7: for every pair of rectangles with positive width and height,
`detectGaps` returns exactly the four clamped edge distances of spec §4.1,
and every component of the returned gap vector is non-negative.  The
function is a pure Lean definition, so it has no side effects. -/
theorem detectGaps_formula_and_nonneg (slotRect photoRect : AutoSnap.Rect)
    (hsw : 0 < slotRect.width) (hsh : 0 < slotRect.height)
    (hpw : 0 < photoRect.width) (hph : 0 < photoRect.height) :
    AutoSnap.detectGaps slotRect photoRect =
      some
        { top := max 0 (photoRect.y - slotRect.y)
          left := max 0 (photoRect.x - slotRect.x)
          right := max 0 ((slotRect.x + slotRect.width) - (photoRect.x + photoRect.width))
          bottom := max 0 ((slotRect.y + slotRect.height) - (photoRect.y + photoRect.height)) } ∧
      ∀ g : AutoSnap.GapVector, AutoSnap.detectGaps slotRect photoRect = some g →
        0 ≤ g.top ∧ 0 ≤ g.right ∧ 0 ≤ g.bottom ∧ 0 ≤ g.left := by
  have h1 : ¬ slotRect.width ≤ 0 := not_le.mpr hsw
  have h2 : ¬ slotRect.height ≤ 0 := not_le.mpr hsh
  have h3 : ¬ photoRect.width ≤ 0 := not_le.mpr hpw
  have h4 : ¬ photoRect.height ≤ 0 := not_le.mpr hph
  constructor
  · simp [AutoSnap.detectGaps, AutoSnap.degenerate, AutoSnap.detectGapsRaw, h1, h2, h3, h4]
  · intro g hg
    rw [AutoSnap.detectGaps,
      if_neg (by simp [AutoSnap.degenerate, h1, h2, h3, h4])] at hg
    injection hg with h
    rw [← h]
    exact ⟨le_max_left _ _, le_max_left _ _, le_max_left _ _, le_max_left _ _⟩

/-- C7 witness: concrete evaluation of `detectGaps` on a 400×600 slot and a
photo inset 20 px from the left and 10 px from the top. -/
theorem detectGaps_formula_and_nonneg_witness :
    AutoSnap.detectGaps ⟨0, 0, 400, 600⟩ ⟨20, 10, 500, 700⟩ =
      some
        { top := max 0 ((10 : ℚ) - 0)
          left := max 0 ((20 : ℚ) - 0)
          right := max 0 ((0 + 400 : ℚ) - (20 + 500))
          bottom := max 0 ((0 + 600 : ℚ) - (10 + 700)) } :=
  (detectGaps_formula_and_nonneg ⟨0, 0, 400, 600⟩ ⟨20, 10, 500, 700⟩
    (by norm_num) (by norm_num) (by norm_num) (by norm_num)).1

/-- C8: on degenerate geometry (either rectangle with non-positive width or
height) `finalize` attempts no correction: the transform is returned
unchanged and `DegenerateGeometry` is recorded in the trace.  `finalize` is a
total function, so no exception can propagate. -/
theorem finalize_degenerate_geometry (t : AutoSnap.Transform)
    (slotRect photoRect : AutoSnap.Rect)
    (h : slotRect.width ≤ 0 ∨ slotRect.height ≤ 0 ∨
      photoRect.width ≤ 0 ∨ photoRect.height ≤ 0) :
    (AutoSnap.finalize t slotRect photoRect).1 = t ∧
      (AutoSnap.finalize t slotRect photoRect).2.degenerateGeometry = true := by
  have hdeg : (AutoSnap.degenerate slotRect || AutoSnap.degenerate photoRect) = true := by
    rcases h with h | h | h | h <;> simp [AutoSnap.degenerate, h]
  simp [AutoSnap.finalize, hdeg]

/-- C8 witness: a slot rectangle of zero width leaves the transform
unchanged and records the degeneracy. -/
theorem finalize_degenerate_geometry_witness :
    (AutoSnap.finalize ⟨1/10, 1/5, 1⟩ ⟨0, 0, 0, 600⟩ ⟨0, 0, 100, 100⟩).1 = ⟨1/10, 1/5, 1⟩ ∧
      (AutoSnap.finalize ⟨1/10, 1/5, 1⟩ ⟨0, 0, 0, 600⟩ ⟨0, 0, 100, 100⟩).2.degenerateGeometry =
        true :=
  finalize_degenerate_geometry ⟨1/10, 1/5, 1⟩ ⟨0, 0, 0, 600⟩ ⟨0, 0, 100, 100⟩
    (Or.inl (by norm_num))

end GapDetectorClaims

section PlannerClaims

/-- C2: the Movement Planner's classification depends only on the count of
sides whose gap strictly exceeds the threshold: 0 significant sides yield
`NoOp`, 1 or 2 yield `Translate`, 3 or 4 yield `ResetToDefault`.  The plan
is a value of the closed inductive `CorrectionPlan`, so exactly one variant
is produced per evaluation. -/
theorem planMovement_classification_by_count (g : AutoSnap.GapVector)
    (slotRect : AutoSnap.Rect) :
    (AutoSnap.significantCount g AutoSnap.GapThreshold = 0 →
        AutoSnap.planMovement g slotRect AutoSnap.GapThreshold = AutoSnap.CorrectionPlan.noop) ∧
      (1 ≤ AutoSnap.significantCount g AutoSnap.GapThreshold →
        AutoSnap.significantCount g AutoSnap.GapThreshold ≤ 2 →
        ∃ dx dy, AutoSnap.planMovement g slotRect AutoSnap.GapThreshold =
          AutoSnap.CorrectionPlan.translate dx dy) ∧
      (3 ≤ AutoSnap.significantCount g AutoSnap.GapThreshold →
        AutoSnap.planMovement g slotRect AutoSnap.GapThreshold =
          AutoSnap.CorrectionPlan.resetToDefault) := by
  refine ⟨fun h0 => ?_, fun h1 h2 => ?_, fun h3 => ?_⟩
  · simp [AutoSnap.planMovement, h0]
  · rw [AutoSnap.planMovement, if_neg (by omega), if_pos h2]
    exact ⟨_, _, rfl⟩
  · rw [AutoSnap.planMovement, if_neg (by omega), if_neg (by omega)]

/-- C2 witness: zero gaps yield `NoOp`; a single 20 px left gap yields a
`Translate`; gaps on all four sides yield `ResetToDefault`. -/
theorem planMovement_classification_by_count_witness :
    AutoSnap.planMovement ⟨0, 0, 0, 0⟩ ⟨0, 0, 400, 600⟩ AutoSnap.GapThreshold =
        AutoSnap.CorrectionPlan.noop ∧
      (∃ dx dy, AutoSnap.planMovement ⟨0, 0, 0, 20⟩ ⟨0, 0, 400, 600⟩ AutoSnap.GapThreshold =
        AutoSnap.CorrectionPlan.translate dx dy) ∧
      AutoSnap.planMovement ⟨5, 5, 5, 5⟩ ⟨0, 0, 400, 600⟩ AutoSnap.GapThreshold =
        AutoSnap.CorrectionPlan.resetToDefault :=
  ⟨(planMovement_classification_by_count ⟨0, 0, 0, 0⟩ ⟨0, 0, 400, 600⟩).1 (by decide),
    (planMovement_classification_by_count ⟨0, 0, 0, 20⟩ ⟨0, 0, 400, 600⟩).2.1
      (by decide) (by decide),
    (planMovement_classification_by_count ⟨5, 5, 5, 5⟩ ⟨0, 0, 400, 600⟩).2.2 (by decide)⟩

end PlannerClaims

section PlannerAdditiveClaims

/-- C3: for every non-negative gap vector with 1 or 2 significant sides, the
planned translation is the exact additive vector sum of the per-side
corrections, `dxPercent = gaps.left/slotRect.width - gaps.right/slotRect.width`
and `dyPercent = gaps.top/slotRect.height - gaps.bottom/slotRect.height`,
with no special-casing of simultaneously significant opposite sides, and
applying the plan leaves the scale unchanged. -/
theorem planMovement_two_side_additive (g : AutoSnap.GapVector) (slotRect : AutoSnap.Rect)
    (hnt : 0 ≤ g.top) (hnr : 0 ≤ g.right) (hnb : 0 ≤ g.bottom) (hnl : 0 ≤ g.left)
    (h1 : 1 ≤ AutoSnap.significantCount g AutoSnap.GapThreshold)
    (h2 : AutoSnap.significantCount g AutoSnap.GapThreshold ≤ 2) :
    AutoSnap.planMovement g slotRect AutoSnap.GapThreshold =
      AutoSnap.CorrectionPlan.translate
        (g.left / slotRect.width - g.right / slotRect.width)
        (g.top / slotRect.height - g.bottom / slotRect.height) ∧
      ∀ t : AutoSnap.Transform,
        (AutoSnap.applyPlan t (AutoSnap.planMovement g slotRect AutoSnap.GapThreshold)).scale =
          t.scale := by
  have e : ∀ (a w : ℚ), 0 ≤ a → (if AutoSnap.GapThreshold < a then a / w else 0) = a / w := by
    intro a w ha
    rw [AutoSnap.GapThreshold]
    split
    · rfl
    · have h0 : a = 0 := le_antisymm (not_lt.mp (by assumption)) ha
      simp [h0]
  have hplan : AutoSnap.planMovement g slotRect AutoSnap.GapThreshold =
      AutoSnap.CorrectionPlan.translate
        (g.left / slotRect.width - g.right / slotRect.width)
        (g.top / slotRect.height - g.bottom / slotRect.height) := by
    rw [AutoSnap.planMovement, if_neg (by omega), if_pos h2,
      e _ _ hnl, e _ _ hnr, e _ _ hnt, e _ _ hnb]
  exact ⟨hplan, fun t => by rw [hplan]; rfl⟩

/-- C3 witness: `gaps = {left: 20, top: 10, right: 0, bottom: 0}` on a
400×600 slot yields the translation `(20/400, 10/600) = (+0.05, +1/60)`
(the spec's `+0.0167` is `1/60` rounded), scale unchanged. -/
theorem planMovement_two_side_additive_witness :
    AutoSnap.planMovement ⟨10, 0, 0, 20⟩ ⟨0, 0, 400, 600⟩ AutoSnap.GapThreshold =
      AutoSnap.CorrectionPlan.translate ((20 : ℚ) / 400 - 0 / 400) ((10 : ℚ) / 600 - 0 / 600) ∧
      (AutoSnap.applyPlan ⟨0, 0, 1⟩
        (AutoSnap.planMovement ⟨10, 0, 0, 20⟩ ⟨0, 0, 400, 600⟩ AutoSnap.GapThreshold)).scale =
        (⟨0, 0, 1⟩ : AutoSnap.Transform).scale :=
  have h := planMovement_two_side_additive ⟨10, 0, 0, 20⟩ ⟨0, 0, 400, 600⟩
    (by norm_num) (by norm_num) (by norm_num) (by norm_num) (by decide) (by decide)
  ⟨h.1, h.2 ⟨0, 0, 1⟩⟩

end PlannerAdditiveClaims

section ValidatorClaims

/-- C4: the Post-Snap Validator passes `NoOp` and `ResetToDefault` through
unchanged; for a `Translate` plan it re-runs gap detection on the photo
rectangle shifted by the planned translation at the 5 px allowance, returns
`ResetToDefault` when the simulated gap vector has 3 or more significant
sides at that allowance, and otherwise returns the original `Translate`
unchanged. -/
theorem validate_post_snap_override (slotRect photoRect : AutoSnap.Rect) (dx dy : ℚ) :
    AutoSnap.PostSnapAllowance = 5 ∧
      AutoSnap.validate AutoSnap.CorrectionPlan.noop slotRect photoRect
        AutoSnap.PostSnapAllowance = AutoSnap.CorrectionPlan.noop ∧
      AutoSnap.validate AutoSnap.CorrectionPlan.resetToDefault slotRect photoRect
        AutoSnap.PostSnapAllowance = AutoSnap.CorrectionPlan.resetToDefault ∧
      (3 ≤ AutoSnap.significantCount (AutoSnap.detectPostSnapGaps slotRect photoRect dx dy)
          AutoSnap.PostSnapAllowance →
        AutoSnap.validate (AutoSnap.CorrectionPlan.translate dx dy) slotRect photoRect
          AutoSnap.PostSnapAllowance = AutoSnap.CorrectionPlan.resetToDefault) ∧
      (AutoSnap.significantCount (AutoSnap.detectPostSnapGaps slotRect photoRect dx dy)
          AutoSnap.PostSnapAllowance < 3 →
        AutoSnap.validate (AutoSnap.CorrectionPlan.translate dx dy) slotRect photoRect
          AutoSnap.PostSnapAllowance = AutoSnap.CorrectionPlan.translate dx dy) := by
  refine ⟨rfl, rfl, rfl, fun h => ?_, fun h => ?_⟩
  · rw [AutoSnap.validate, if_pos h]
  · rw [AutoSnap.validate, if_neg (by omega)]

/-- C4 witness: a 100×100 photo inset 10 px in a 400×600 slot keeps 4 sides
gapped beyond 5 px under the zero translation, so the validator overrides to
`ResetToDefault`; a 400×600 photo inset 10 px from the left keeps a single
gapped side, so its `Translate` plan passes unchanged. -/
theorem validate_post_snap_override_witness :
    AutoSnap.validate (AutoSnap.CorrectionPlan.translate 0 0) ⟨0, 0, 400, 600⟩
        ⟨10, 10, 100, 100⟩ AutoSnap.PostSnapAllowance = AutoSnap.CorrectionPlan.resetToDefault ∧
      AutoSnap.validate (AutoSnap.CorrectionPlan.translate 0 0) ⟨0, 0, 400, 600⟩
        ⟨10, 0, 400, 600⟩ AutoSnap.PostSnapAllowance =
        AutoSnap.CorrectionPlan.translate 0 0 :=
  ⟨(validate_post_snap_override ⟨0, 0, 400, 600⟩ ⟨10, 10, 100, 100⟩ 0 0).2.2.2.1
      (by norm_num [AutoSnap.significantCount, AutoSnap.detectPostSnapGaps,
        AutoSnap.detectGapsRaw, AutoSnap.shiftRect, AutoSnap.PostSnapAllowance, max_def]),
    (validate_post_snap_override ⟨0, 0, 400, 600⟩ ⟨10, 0, 400, 600⟩ 0 0).2.2.2.2
      (by norm_num [AutoSnap.significantCount, AutoSnap.detectPostSnapGaps,
        AutoSnap.detectGapsRaw, AutoSnap.shiftRect, AutoSnap.PostSnapAllowance, max_def])⟩

end ValidatorClaims

section ResetClaims

/-- C6: when the chosen plan recorded by `finalize` is `ResetToDefault`, the
returned transform is the fixed default transform — centered offsets and
`scale = defaultScale = 1/2`, the editor's documented initial placement —
discarding all prior offset and scale, for every current transform. -/
theorem finalize_reset_yields_default (t : AutoSnap.Transform)
    (slotRect photoRect : AutoSnap.Rect)
    (h : (AutoSnap.finalize t slotRect photoRect).2.chosenPlan =
      some AutoSnap.CorrectionPlan.resetToDefault) :
    (AutoSnap.finalize t slotRect photoRect).1 = AutoSnap.defaultTransform ∧
      AutoSnap.defaultTransform =
        { offsetXPercent := 0, offsetYPercent := 0, scale := AutoSnap.defaultScale } ∧
      AutoSnap.defaultScale = 1 / 2 := by
  refine ⟨?_, rfl, rfl⟩
  rw [AutoSnap.finalize] at h ⊢
  by_cases hdeg : (AutoSnap.degenerate slotRect || AutoSnap.degenerate photoRect) = true
  · rw [if_pos hdeg] at h
    exact absurd h (by simp)
  · rw [if_neg hdeg] at h ⊢
    have h2 : AutoSnap.validate
        (AutoSnap.planMovement (AutoSnap.detectGapsRaw slotRect photoRect) slotRect
          AutoSnap.GapThreshold) slotRect photoRect AutoSnap.PostSnapAllowance =
        AutoSnap.CorrectionPlan.resetToDefault := Option.some.inj h
    show AutoSnap.applyPlan t
        (AutoSnap.validate
          (AutoSnap.planMovement (AutoSnap.detectGapsRaw slotRect photoRect) slotRect
            AutoSnap.GapThreshold) slotRect photoRect AutoSnap.PostSnapAllowance) =
      AutoSnap.defaultTransform
    rw [h2]
    rfl

/-- C6 witness: a 100×100 photo inset 20 px in a 400×600 slot has all four
sides gapped, the plan is `ResetToDefault`, and an arbitrary prior transform
is discarded for the default. -/
theorem finalize_reset_yields_default_witness :
    (AutoSnap.finalize ⟨3, 4, 7⟩ ⟨0, 0, 400, 600⟩ ⟨20, 20, 100, 100⟩).1 =
        AutoSnap.defaultTransform ∧
      AutoSnap.defaultTransform =
        { offsetXPercent := 0, offsetYPercent := 0, scale := AutoSnap.defaultScale } ∧
      AutoSnap.defaultScale = 1 / 2 :=
  finalize_reset_yields_default ⟨3, 4, 7⟩ ⟨0, 0, 400, 600⟩ ⟨20, 20, 100, 100⟩
    (by norm_num [AutoSnap.finalize, AutoSnap.degenerate, AutoSnap.detectGapsRaw,
      AutoSnap.planMovement, AutoSnap.significantCount, AutoSnap.GapThreshold,
      AutoSnap.validate, AutoSnap.detectPostSnapGaps, AutoSnap.shiftRect,
      AutoSnap.PostSnapAllowance, max_def])

end ResetClaims

section DirectionalClaims

/-- C1: directional correctness of the Movement Planner.  For every measured
gap vector with exactly one significant side on a slot of positive width and
height, the planned translation moves the photo toward the gapped edge and
closes that gap (the simulated gap on that side becomes 0, so it is never
enlarged): a left gap yields `dxPercent = +gaps.left/slotRect.width` with
`dyPercent = 0`, a right gap a negative `dxPercent`, a top gap a positive
`dyPercent`, and a bottom gap a negative `dyPercent`. -/
theorem planMovement_single_side_directional (slotRect photoRect : AutoSnap.Rect)
    (g : AutoSnap.GapVector) (hg : g = AutoSnap.detectGapsRaw slotRect photoRect)
    (hsw : 0 < slotRect.width) (hsh : 0 < slotRect.height)
    (hcount : AutoSnap.significantCount g AutoSnap.GapThreshold = 1) :
    (0 < g.left →
        AutoSnap.planMovement g slotRect AutoSnap.GapThreshold =
          AutoSnap.CorrectionPlan.translate (g.left / slotRect.width) 0 ∧
        0 < g.left / slotRect.width ∧
        (AutoSnap.detectPostSnapGaps slotRect photoRect (g.left / slotRect.width) 0).left = 0) ∧
      (0 < g.right →
        AutoSnap.planMovement g slotRect AutoSnap.GapThreshold =
          AutoSnap.CorrectionPlan.translate (-(g.right / slotRect.width)) 0 ∧
        -(g.right / slotRect.width) < 0 ∧
        (AutoSnap.detectPostSnapGaps slotRect photoRect (-(g.right / slotRect.width)) 0).right =
          0) ∧
      (0 < g.top →
        AutoSnap.planMovement g slotRect AutoSnap.GapThreshold =
          AutoSnap.CorrectionPlan.translate 0 (g.top / slotRect.height) ∧
        0 < g.top / slotRect.height ∧
        (AutoSnap.detectPostSnapGaps slotRect photoRect 0 (g.top / slotRect.height)).top = 0) ∧
      (0 < g.bottom →
        AutoSnap.planMovement g slotRect AutoSnap.GapThreshold =
          AutoSnap.CorrectionPlan.translate 0 (-(g.bottom / slotRect.height)) ∧
        -(g.bottom / slotRect.height) < 0 ∧
        (AutoSnap.detectPostSnapGaps slotRect photoRect 0
          (-(g.bottom / slotRect.height))).bottom = 0) := by
  have hGT : AutoSnap.GapThreshold = 0 := rfl
  refine ⟨fun hpos => ?_, fun hpos => ?_, fun hpos => ?_, fun hpos => ?_⟩
  · -- left gap
    have hnt : ¬ (0:ℚ) < g.top := by
      intro hcon
      rw [AutoSnap.significantCount, hGT] at hcount
      split_ifs at hcount <;> first | contradiction | omega
    have hnr : ¬ (0:ℚ) < g.right := by
      intro hcon
      rw [AutoSnap.significantCount, hGT] at hcount
      split_ifs at hcount <;> first | contradiction | omega
    have hnb : ¬ (0:ℚ) < g.bottom := by
      intro hcon
      rw [AutoSnap.significantCount, hGT] at hcount
      split_ifs at hcount <;> first | contradiction | omega
    have hplan : AutoSnap.planMovement g slotRect AutoSnap.GapThreshold =
        AutoSnap.CorrectionPlan.translate (g.left / slotRect.width) 0 := by
      rw [AutoSnap.planMovement, hcount]
      norm_num [hGT, hpos, hnt, hnr, hnb]
    have hx : g.left = photoRect.x - slotRect.x := by
      have hlt : (0:ℚ) < photoRect.x - slotRect.x := by
        by_contra hcon
        rw [hg] at hpos
        simp [AutoSnap.detectGapsRaw, max_eq_left (not_lt.mp hcon)] at hpos
      rw [hg]
      exact max_eq_right hlt.le
    refine ⟨hplan, div_pos hpos hsw, ?_⟩
    simp only [AutoSnap.detectPostSnapGaps, AutoSnap.detectGapsRaw, AutoSnap.shiftRect]
    rw [div_mul_cancel₀ _ (ne_of_gt hsw), hx,
      show photoRect.x - (photoRect.x - slotRect.x) - slotRect.x = 0 by ring]
    exact max_self 0
  · -- right gap
    have hnt : ¬ (0:ℚ) < g.top := by
      intro hcon
      rw [AutoSnap.significantCount, hGT] at hcount
      split_ifs at hcount <;> first | contradiction | omega
    have hnb : ¬ (0:ℚ) < g.bottom := by
      intro hcon
      rw [AutoSnap.significantCount, hGT] at hcount
      split_ifs at hcount <;> first | contradiction | omega
    have hnl : ¬ (0:ℚ) < g.left := by
      intro hcon
      rw [AutoSnap.significantCount, hGT] at hcount
      split_ifs at hcount <;> first | contradiction | omega
    have hplan : AutoSnap.planMovement g slotRect AutoSnap.GapThreshold =
        AutoSnap.CorrectionPlan.translate (-(g.right / slotRect.width)) 0 := by
      rw [AutoSnap.planMovement, hcount]
      norm_num [hGT, hpos, hnt, hnl, hnb]
    have hx : g.right = (slotRect.x + slotRect.width) - (photoRect.x + photoRect.width) := by
      have hlt : (0:ℚ) < (slotRect.x + slotRect.width) - (photoRect.x + photoRect.width) := by
        by_contra hcon
        rw [hg] at hpos
        simp [AutoSnap.detectGapsRaw, max_eq_left (not_lt.mp hcon)] at hpos
      rw [hg]
      exact max_eq_right hlt.le
    refine ⟨hplan, by have := div_pos hpos hsw; linarith, ?_⟩
    simp only [AutoSnap.detectPostSnapGaps, AutoSnap.detectGapsRaw, AutoSnap.shiftRect]
    rw [neg_mul, div_mul_cancel₀ _ (ne_of_gt hsw), sub_neg_eq_add, hx,
      show (slotRect.x + slotRect.width) -
        (photoRect.x + ((slotRect.x + slotRect.width) - (photoRect.x + photoRect.width)) +
          photoRect.width) = 0 by ring]
    exact max_self 0
  · -- top gap
    have hnr : ¬ (0:ℚ) < g.right := by
      intro hcon
      rw [AutoSnap.significantCount, hGT] at hcount
      split_ifs at hcount <;> first | contradiction | omega
    have hnb : ¬ (0:ℚ) < g.bottom := by
      intro hcon
      rw [AutoSnap.significantCount, hGT] at hcount
      split_ifs at hcount <;> first | contradiction | omega
    have hnl : ¬ (0:ℚ) < g.left := by
      intro hcon
      rw [AutoSnap.significantCount, hGT] at hcount
      split_ifs at hcount <;> first | contradiction | omega
    have hplan : AutoSnap.planMovement g slotRect AutoSnap.GapThreshold =
        AutoSnap.CorrectionPlan.translate 0 (g.top / slotRect.height) := by
      rw [AutoSnap.planMovement, hcount]
      norm_num [hGT, hpos, hnr, hnl, hnb]
    have hx : g.top = photoRect.y - slotRect.y := by
      have hlt : (0:ℚ) < photoRect.y - slotRect.y := by
        by_contra hcon
        rw [hg] at hpos
        simp [AutoSnap.detectGapsRaw, max_eq_left (not_lt.mp hcon)] at hpos
      rw [hg]
      exact max_eq_right hlt.le
    refine ⟨hplan, div_pos hpos hsh, ?_⟩
    simp only [AutoSnap.detectPostSnapGaps, AutoSnap.detectGapsRaw, AutoSnap.shiftRect]
    rw [div_mul_cancel₀ _ (ne_of_gt hsh), hx,
      show photoRect.y - (photoRect.y - slotRect.y) - slotRect.y = 0 by ring]
    exact max_self 0
  · -- bottom gap
    have hnt : ¬ (0:ℚ) < g.top := by
      intro hcon
      rw [AutoSnap.significantCount, hGT] at hcount
      split_ifs at hcount <;> first | contradiction | omega
    have hnr : ¬ (0:ℚ) < g.right := by
      intro hcon
      rw [AutoSnap.significantCount, hGT] at hcount
      split_ifs at hcount <;> first | contradiction | omega
    have hnl : ¬ (0:ℚ) < g.left := by
      intro hcon
      rw [AutoSnap.significantCount, hGT] at hcount
      split_ifs at hcount <;> first | contradiction | omega
    have hplan : AutoSnap.planMovement g slotRect AutoSnap.GapThreshold =
        AutoSnap.CorrectionPlan.translate 0 (-(g.bottom / slotRect.height)) := by
      rw [AutoSnap.planMovement, hcount]
      norm_num [hGT, hpos, hnt, hnr, hnl]
    have hx : g.bottom =
        (slotRect.y + slotRect.height) - (photoRect.y + photoRect.height) := by
      have hlt : (0:ℚ) < (slotRect.y + slotRect.height) - (photoRect.y + photoRect.height) := by
        by_contra hcon
        rw [hg] at hpos
        simp [AutoSnap.detectGapsRaw, max_eq_left (not_lt.mp hcon)] at hpos
      rw [hg]
      exact max_eq_right hlt.le
    refine ⟨hplan, by have := div_pos hpos hsh; linarith, ?_⟩
    simp only [AutoSnap.detectPostSnapGaps, AutoSnap.detectGapsRaw, AutoSnap.shiftRect]
    rw [neg_mul, div_mul_cancel₀ _ (ne_of_gt hsh), sub_neg_eq_add, hx,
      show (slotRect.y + slotRect.height) -
        (photoRect.y + ((slotRect.y + slotRect.height) - (photoRect.y + photoRect.height)) +
          photoRect.height) = 0 by ring]
    exact max_self 0

/-- C1 witness: `gaps = {left: 20, top: 0, right: 0, bottom: 0}` measured on
a 400×600 slot (photo inset 20 px from the left) yields
`dxPercent = 20/400 = +0.05` and `dyPercent = 0`, and the simulated left gap
after the move is 0. -/
theorem planMovement_single_side_directional_witness :
    AutoSnap.planMovement ⟨0, 0, 0, 20⟩ ⟨0, 0, 400, 600⟩ AutoSnap.GapThreshold =
        AutoSnap.CorrectionPlan.translate ((20 : ℚ) / 400) 0 ∧
      0 < (20 : ℚ) / 400 ∧
      (AutoSnap.detectPostSnapGaps ⟨0, 0, 400, 600⟩ ⟨20, 0, 400, 600⟩
        ((20 : ℚ) / 400) 0).left = 0 :=
  (planMovement_single_side_directional ⟨0, 0, 400, 600⟩ ⟨20, 0, 400, 600⟩ ⟨0, 0, 0, 20⟩
    (by norm_num [AutoSnap.detectGapsRaw, max_def]) (by norm_num) (by norm_num)
    (by decide)).1 (by norm_num)

end DirectionalClaims

section IdempotenceClaims

/-- Helper: two opposite gaps of one axis cannot both be positive when the
photo covers the slot on that axis (their un-clamped values sum to
`slot extent - photo extent ≤ 0`). -/
theorem gap_pair_not_both_pos (a b : ℚ) (h : a + b ≤ 0) :
    ¬(0 < max 0 a ∧ 0 < max 0 b) := by
  rintro ⟨ha, hb⟩
  have p1 : 0 < a := by
    rcases lt_max_iff.mp ha with h' | h'
    · exact absurd h' (lt_irrefl 0)
    · exact h'
  have p2 : 0 < b := by
    rcases lt_max_iff.mp hb with h' | h'
    · exact absurd h' (lt_irrefl 0)
    · exact h'
  linarith

/-- Helper: when the photo covers the slot on both axes, at most two sides
of the measured gap vector are significant at the strict threshold. -/
theorem significantCount_le_two_of_cover (slotRect photoRect : AutoSnap.Rect)
    (hw : slotRect.width ≤ photoRect.width) (hh : slotRect.height ≤ photoRect.height) :
    AutoSnap.significantCount (AutoSnap.detectGapsRaw slotRect photoRect)
      AutoSnap.GapThreshold ≤ 2 := by
  have hy : ¬(0 < max 0 (photoRect.y - slotRect.y) ∧
      0 < max 0 ((slotRect.y + slotRect.height) - (photoRect.y + photoRect.height))) :=
    gap_pair_not_both_pos _ _ (by linarith)
  have hx : ¬(0 < max 0 (photoRect.x - slotRect.x) ∧
      0 < max 0 ((slotRect.x + slotRect.width) - (photoRect.x + photoRect.width))) :=
    gap_pair_not_both_pos _ _ (by linarith)
  rw [AutoSnap.significantCount, AutoSnap.GapThreshold]
  simp only [AutoSnap.detectGapsRaw]
  have hsum_y : (if (0:ℚ) < max 0 (photoRect.y - slotRect.y) then (1:ℕ) else 0) +
      (if (0:ℚ) < max 0 ((slotRect.y + slotRect.height) - (photoRect.y + photoRect.height))
        then (1:ℕ) else 0) ≤ 1 := by
    split_ifs with ha hb hc
    · exact absurd ⟨ha, hb⟩ hy
    all_goals omega
  have hsum_x : (if (0:ℚ) < max 0 (photoRect.x - slotRect.x) then (1:ℕ) else 0) +
      (if (0:ℚ) < max 0 ((slotRect.x + slotRect.width) - (photoRect.x + photoRect.width))
        then (1:ℕ) else 0) ≤ 1 := by
    split_ifs with ha hb hc
    · exact absurd ⟨ha, hb⟩ hx
    all_goals omega
  calc (if (0:ℚ) < max 0 (photoRect.y - slotRect.y) then (1:ℕ) else 0) +
        (if (0:ℚ) < max 0 ((slotRect.x + slotRect.width) - (photoRect.x + photoRect.width))
          then (1:ℕ) else 0) +
        (if (0:ℚ) < max 0 ((slotRect.y + slotRect.height) - (photoRect.y + photoRect.height))
          then (1:ℕ) else 0) +
        (if (0:ℚ) < max 0 (photoRect.x - slotRect.x) then (1:ℕ) else 0) =
      ((if (0:ℚ) < max 0 (photoRect.y - slotRect.y) then (1:ℕ) else 0) +
        (if (0:ℚ) < max 0 ((slotRect.y + slotRect.height) - (photoRect.y + photoRect.height))
          then (1:ℕ) else 0)) +
      ((if (0:ℚ) < max 0 (photoRect.x - slotRect.x) then (1:ℕ) else 0) +
        (if (0:ℚ) < max 0 ((slotRect.x + slotRect.width) - (photoRect.x + photoRect.width))
          then (1:ℕ) else 0)) := by ring
    _ ≤ 1 + 1 := add_le_add hsum_y hsum_x
    _ = 2 := rfl

/-- Helper: on one axis, the planned gated translation closes both the
leading and the trailing gap exactly, provided the photo covers the slot on
that axis. -/
theorem axis_gap_closed (sx sw px pw l r d : ℚ) (hsw : 0 < sw) (hcover : sw ≤ pw)
    (hl : l = max 0 (px - sx)) (hr : r = max 0 ((sx + sw) - (px + pw)))
    (hd : d = (if 0 < l then l / sw else 0) - (if 0 < r then r / sw else 0)) :
    max 0 ((px - d * sw) - sx) = 0 ∧ max 0 ((sx + sw) - ((px - d * sw) + pw)) = 0 := by
  rcases lt_or_le 0 (px - sx) with hxp | hxp
  · have hl' : l = px - sx := by rw [hl]; exact max_eq_right hxp.le
    have hrz : r = 0 := by
      rw [hr]; exact max_eq_left (by linarith)
    have hd' : d * sw = px - sx := by
      rw [hd, hrz, if_neg (lt_irrefl 0), hl', if_pos hxp, sub_zero,
        div_mul_cancel₀ _ (ne_of_gt hsw)]
    constructor
    · rw [hd', show px - (px - sx) - sx = 0 by ring]
      exact max_self 0
    · rw [hd']
      refine max_eq_left ?_
      rw [show (sx + sw) - ((px - (px - sx)) + pw) = sw - pw by ring]
      linarith
  · have hlz : l = 0 := by rw [hl]; exact max_eq_left (by linarith)
    rcases lt_or_le 0 ((sx + sw) - (px + pw)) with hyp | hyp
    · have hr' : r = (sx + sw) - (px + pw) := by rw [hr]; exact max_eq_right hyp.le
      have hd' : d * sw = -((sx + sw) - (px + pw)) := by
        rw [hd, hlz, if_neg (lt_irrefl 0), hr', if_pos hyp, zero_sub, neg_mul,
          div_mul_cancel₀ _ (ne_of_gt hsw)]
      constructor
      · rw [hd']
        refine max_eq_left ?_
        rw [show px - -((sx + sw) - (px + pw)) - sx = sw - pw by ring]
        linarith
      · rw [hd', show (sx + sw) - ((px - -((sx + sw) - (px + pw))) + pw) = 0 by ring]
        exact max_self 0
    · have hrz : r = 0 := by rw [hr]; exact max_eq_left hyp
      have hd' : d * sw = 0 := by
        rw [hd, hlz, hrz, if_neg (lt_irrefl 0), sub_self, zero_mul]
      constructor
      · rw [hd', sub_zero]
        exact max_eq_left hxp
      · rw [hd', sub_zero]
        exact max_eq_left hyp

/-- Helper: when every measured gap component is zero and the geometry is
non-degenerate, `finalize` chooses `NoOp` and returns the transform
unchanged. -/
theorem finalize_noop_of_zero_gaps (t : AutoSnap.Transform)
    (slotRect photoRect : AutoSnap.Rect)
    (hnd : (AutoSnap.degenerate slotRect || AutoSnap.degenerate photoRect) = false)
    (h1 : (AutoSnap.detectGapsRaw slotRect photoRect).top = 0)
    (h2 : (AutoSnap.detectGapsRaw slotRect photoRect).right = 0)
    (h3 : (AutoSnap.detectGapsRaw slotRect photoRect).bottom = 0)
    (h4 : (AutoSnap.detectGapsRaw slotRect photoRect).left = 0) :
    (AutoSnap.finalize t slotRect photoRect).1 = t ∧
      (AutoSnap.finalize t slotRect photoRect).2.chosenPlan =
        some AutoSnap.CorrectionPlan.noop := by
  have hc : AutoSnap.significantCount (AutoSnap.detectGapsRaw slotRect photoRect)
      AutoSnap.GapThreshold = 0 := by
    rw [AutoSnap.significantCount, h1, h2, h3, h4, AutoSnap.GapThreshold]
    norm_num
  have hplan : AutoSnap.planMovement (AutoSnap.detectGapsRaw slotRect photoRect) slotRect
      AutoSnap.GapThreshold = AutoSnap.CorrectionPlan.noop := by
    rw [AutoSnap.planMovement, hc]
    norm_num
  rw [AutoSnap.finalize, if_neg (by simp [hnd])]
  constructor
  · show AutoSnap.applyPlan t
        (AutoSnap.validate
          (AutoSnap.planMovement (AutoSnap.detectGapsRaw slotRect photoRect) slotRect
            AutoSnap.GapThreshold) slotRect photoRect AutoSnap.PostSnapAllowance) = t
    rw [hplan]
    rfl
  · show some
        (AutoSnap.validate
          (AutoSnap.planMovement (AutoSnap.detectGapsRaw slotRect photoRect) slotRect
            AutoSnap.GapThreshold) slotRect photoRect AutoSnap.PostSnapAllowance) =
      some AutoSnap.CorrectionPlan.noop
    rw [hplan]
    rfl

/-- C5 counterexample: idempotence fails as stated.  With a 400×600 slot and
a 390 px wide photo inset 20 px from the left (stable geometry: the second
commit measures the photo as re-rendered under the first commit's
transform), the first commit translates by `+20/400` and exposes a 10 px
right gap, and the second commit translates back by `-10/400`, so the second
transform differs from the first. -/
theorem finalize_idempotence_counterexample :
    (AutoSnap.finalizeStable
        ((AutoSnap.finalizeStable ⟨0, 0, 1⟩ ⟨0, 0, 400, 600⟩ ⟨20, 0, 390, 600⟩).1)
        ⟨0, 0, 400, 600⟩ ⟨20, 0, 390, 600⟩).1 ≠
      (AutoSnap.finalizeStable ⟨0, 0, 1⟩ ⟨0, 0, 400, 600⟩ ⟨20, 0, 390, 600⟩).1 := by
  norm_num [AutoSnap.finalizeStable, AutoSnap.finalize, AutoSnap.renderRect, AutoSnap.shiftRect,
    AutoSnap.detectGapsRaw, AutoSnap.degenerate, AutoSnap.planMovement,
    AutoSnap.significantCount, AutoSnap.validate, AutoSnap.detectPostSnapGaps,
    AutoSnap.applyPlan, AutoSnap.GapThreshold, AutoSnap.PostSnapAllowance,
    AutoSnap.defaultTransform, AutoSnap.defaultScale, max_def]

/-- C5 (amended): finalize is idempotent under stable geometry whenever the
rendered photo covers the slot on both axes (photo width ≥ slot width and
photo height ≥ slot height, which the claim's "closed all significant gaps"
implicitly requires): the second commit changes nothing and its chosen plan
is `NoOp`. -/
theorem finalize_idempotent_on_covering_photo (t : AutoSnap.Transform)
    (slotRect basePhotoRect : AutoSnap.Rect) (hsw : 0 < slotRect.width)
    (hsh : 0 < slotRect.height) (hw : slotRect.width ≤ basePhotoRect.width)
    (hh : slotRect.height ≤ basePhotoRect.height) :
    (AutoSnap.finalizeStable ((AutoSnap.finalizeStable t slotRect basePhotoRect).1)
        slotRect basePhotoRect).1 =
      (AutoSnap.finalizeStable t slotRect basePhotoRect).1 ∧
      (AutoSnap.finalizeStable ((AutoSnap.finalizeStable t slotRect basePhotoRect).1)
        slotRect basePhotoRect).2.chosenPlan = some AutoSnap.CorrectionPlan.noop := by
  have hndAll : ∀ t' : AutoSnap.Transform,
      (AutoSnap.degenerate slotRect ||
        AutoSnap.degenerate (AutoSnap.renderRect basePhotoRect slotRect t')) = false := by
    intro t'
    have h1 : ¬ slotRect.width ≤ 0 := not_le.mpr hsw
    have h2 : ¬ slotRect.height ≤ 0 := not_le.mpr hsh
    have h3 : ¬ (AutoSnap.renderRect basePhotoRect slotRect t').width ≤ 0 :=
      not_le.mpr (lt_of_lt_of_le hsw hw)
    have h4 : ¬ (AutoSnap.renderRect basePhotoRect slotRect t').height ≤ 0 :=
      not_le.mpr (lt_of_lt_of_le hsh hh)
    simp [AutoSnap.degenerate, h1, h2, h3, h4]
  set photo := AutoSnap.renderRect basePhotoRect slotRect t with hphoto
  set g := AutoSnap.detectGapsRaw slotRect photo with hgdef
  have hpw : slotRect.width ≤ photo.width := by rw [hphoto]; exact hw
  have hph : slotRect.height ≤ photo.height := by rw [hphoto]; exact hh
  by_cases hn0 : AutoSnap.significantCount g AutoSnap.GapThreshold = 0
  · -- NoOp case: every gap component is already zero
    have hz : g.top = 0 ∧ g.right = 0 ∧ g.bottom = 0 ∧ g.left = 0 := by
      rw [AutoSnap.significantCount, AutoSnap.GapThreshold] at hn0
      split_ifs at hn0 <;> try omega
      rename_i h1 h2 h3 h4
      refine ⟨le_antisymm (not_lt.mp h1) ?_, le_antisymm (not_lt.mp h2) ?_,
        le_antisymm (not_lt.mp h3) ?_, le_antisymm (not_lt.mp h4) ?_⟩ <;>
        · rw [hgdef]
          exact le_max_left _ _
    have first := finalize_noop_of_zero_gaps t slotRect photo (hndAll t)
      (by rw [← hgdef]; exact hz.1) (by rw [← hgdef]; exact hz.2.1)
      (by rw [← hgdef]; exact hz.2.2.1) (by rw [← hgdef]; exact hz.2.2.2)
    have e1 : (AutoSnap.finalizeStable t slotRect basePhotoRect).1 = t := by
      rw [AutoSnap.finalizeStable, ← hphoto]
      exact first.1
    constructor
    · rw [e1]
      exact e1
    · rw [e1, AutoSnap.finalizeStable, ← hphoto]
      exact first.2
  · -- Translate case
    have hn2 : AutoSnap.significantCount g AutoSnap.GapThreshold ≤ 2 := by
      rw [hgdef]
      exact significantCount_le_two_of_cover slotRect photo hpw hph
    set dx := (if AutoSnap.GapThreshold < g.left then g.left / slotRect.width else 0) -
      (if AutoSnap.GapThreshold < g.right then g.right / slotRect.width else 0) with hdx
    set dy := (if AutoSnap.GapThreshold < g.top then g.top / slotRect.height else 0) -
      (if AutoSnap.GapThreshold < g.bottom then g.bottom / slotRect.height else 0) with hdy
    have hplan : AutoSnap.planMovement g slotRect AutoSnap.GapThreshold =
        AutoSnap.CorrectionPlan.translate dx dy := by
      rw [AutoSnap.planMovement, if_neg hn0, if_pos hn2]
    have hxaxis := axis_gap_closed slotRect.x slotRect.width photo.x photo.width
      g.left g.right dx hsw hpw (by rw [hgdef]; rfl) (by rw [hgdef]; rfl)
      (by rw [hdx, AutoSnap.GapThreshold])
    have hyaxis := axis_gap_closed slotRect.y slotRect.height photo.y photo.height
      g.top g.bottom dy hsh hph (by rw [hgdef]; rfl) (by rw [hgdef]; rfl)
      (by rw [hdy, AutoSnap.GapThreshold])
    have hpost1 : (AutoSnap.detectPostSnapGaps slotRect photo dx dy).top = 0 := by
      simp only [AutoSnap.detectPostSnapGaps, AutoSnap.detectGapsRaw, AutoSnap.shiftRect]
      exact hyaxis.1
    have hpost2 : (AutoSnap.detectPostSnapGaps slotRect photo dx dy).right = 0 := by
      simp only [AutoSnap.detectPostSnapGaps, AutoSnap.detectGapsRaw, AutoSnap.shiftRect]
      exact hxaxis.2
    have hpost3 : (AutoSnap.detectPostSnapGaps slotRect photo dx dy).bottom = 0 := by
      simp only [AutoSnap.detectPostSnapGaps, AutoSnap.detectGapsRaw, AutoSnap.shiftRect]
      exact hyaxis.2
    have hpost4 : (AutoSnap.detectPostSnapGaps slotRect photo dx dy).left = 0 := by
      simp only [AutoSnap.detectPostSnapGaps, AutoSnap.detectGapsRaw, AutoSnap.shiftRect]
      exact hxaxis.1
    have hval : AutoSnap.validate (AutoSnap.CorrectionPlan.translate dx dy) slotRect photo
        AutoSnap.PostSnapAllowance = AutoSnap.CorrectionPlan.translate dx dy := by
      show (if 3 ≤ AutoSnap.significantCount (AutoSnap.detectPostSnapGaps slotRect photo dx dy)
          AutoSnap.PostSnapAllowance then AutoSnap.CorrectionPlan.resetToDefault
        else AutoSnap.CorrectionPlan.translate dx dy) = AutoSnap.CorrectionPlan.translate dx dy
      rw [if_neg ?_]
      rw [AutoSnap.significantCount, hpost1, hpost2, hpost3, hpost4, AutoSnap.PostSnapAllowance]
      norm_num
    have e1 : (AutoSnap.finalizeStable t slotRect basePhotoRect).1 =
        AutoSnap.applyPlan t (AutoSnap.CorrectionPlan.translate dx dy) := by
      rw [AutoSnap.finalizeStable, ← hphoto, AutoSnap.finalize,
        if_neg (by simp [hndAll t, hphoto])]
      show AutoSnap.applyPlan t
          (AutoSnap.validate
            (AutoSnap.planMovement (AutoSnap.detectGapsRaw slotRect photo) slotRect
              AutoSnap.GapThreshold) slotRect photo AutoSnap.PostSnapAllowance) = _
      rw [← hgdef, hplan, hval]
    have hphoto2 : AutoSnap.renderRect basePhotoRect slotRect
        (AutoSnap.applyPlan t (AutoSnap.CorrectionPlan.translate dx dy)) =
        AutoSnap.shiftRect photo dx dy slotRect := by
      rw [hphoto]
      simp only [AutoSnap.renderRect, AutoSnap.shiftRect, AutoSnap.applyPlan]
      congr 1 <;> ring
    have hnd2 : (AutoSnap.degenerate slotRect ||
        AutoSnap.degenerate (AutoSnap.shiftRect photo dx dy slotRect)) = false := by
      rw [← hphoto2]
      exact hndAll _
    have second := finalize_noop_of_zero_gaps
      (AutoSnap.applyPlan t (AutoSnap.CorrectionPlan.translate dx dy)) slotRect
      (AutoSnap.shiftRect photo dx dy slotRect) hnd2 hpost1 hpost2 hpost3 hpost4
    constructor
    · rw [e1, AutoSnap.finalizeStable, hphoto2]
      exact second.1
    · rw [e1, AutoSnap.finalizeStable, hphoto2]
      exact second.2

/-- C5 witness: a 420×620 photo at base position `(5, 2)` covering a 400×600
slot; the first commit closes the 5 px left and 2 px top gaps and the second
commit is a `NoOp` that changes nothing. -/
theorem finalize_idempotent_on_covering_photo_witness :
    (AutoSnap.finalizeStable ((AutoSnap.finalizeStable ⟨0, 0, 1⟩ ⟨0, 0, 400, 600⟩
        ⟨5, 2, 420, 620⟩).1) ⟨0, 0, 400, 600⟩ ⟨5, 2, 420, 620⟩).1 =
      (AutoSnap.finalizeStable ⟨0, 0, 1⟩ ⟨0, 0, 400, 600⟩ ⟨5, 2, 420, 620⟩).1 ∧
      (AutoSnap.finalizeStable ((AutoSnap.finalizeStable ⟨0, 0, 1⟩ ⟨0, 0, 400, 600⟩
        ⟨5, 2, 420, 620⟩).1) ⟨0, 0, 400, 600⟩ ⟨5, 2, 420, 620⟩).2.chosenPlan =
        some AutoSnap.CorrectionPlan.noop :=
  finalize_idempotent_on_covering_photo ⟨0, 0, 1⟩ ⟨0, 0, 400, 600⟩ ⟨5, 2, 420, 620⟩
    (by norm_num) (by norm_num) (by norm_num) (by norm_num)

end IdempotenceClaims

section StoreClaims

/-- Helper: the sum of the values after an object-spread update equals the
old sum minus the (first-match) looked-up value plus the new value. -/
theorem sum_setKey (l : List (String × Int)) (k : String) (v : Int) :
    ((Store.setKey l k v).map Prod.snd).sum =
      (l.map Prod.snd).sum - Store.lookupCount l k + v := by
  induction l with
  | nil => simp [Store.setKey, Store.lookupCount]
  | cons hd tl ih =>
      obtain ⟨k', v'⟩ := hd
      by_cases h : k' = k
      · simp [Store.setKey, Store.lookupCount, h]
        omega
      · simp [Store.setKey, Store.lookupCount, h, ih]
        omega

/-- Helper: every value of the updated map is the new value or one of the
old values. -/
theorem mem_setKey_snd {l : List (String × Int)} {k : String} {v0 v : Int}
    (h : v ∈ (Store.setKey l k v0).map Prod.snd) : v = v0 ∨ v ∈ l.map Prod.snd := by
  induction l with
  | nil =>
      simp [Store.setKey] at h
      exact Or.inl h
  | cons hd tl ih =>
      obtain ⟨k', v'⟩ := hd
      by_cases hk : k' = k
      · simp [Store.setKey, hk] at h
        rcases h with h | h
        · exact Or.inl h
        · exact Or.inr (by simp [h])
      · simp [Store.setKey, hk] at h
        rcases h with h | h
        · exact Or.inr (by simp [h])
        · rcases ih (by simpa using h) with h' | h'
          · exact Or.inl h'
          · exact Or.inr (by simp [h'])

/-- C9: `handleTemplateCountChange` sets the template's count to
`max 0 (currentCount + change)` and applies the update exactly when the
resulting total over all templates' counts stays within the limit
(`customLimit` when supplied, otherwise the selected package's
`templateCount`, otherwise `0`); when the limit would be exceeded the counts
are left completely unchanged; and when no stored count is negative, none is
negative afterwards. -/
theorem handleTemplateCountChange_spec (counts : List (String × Int)) (pkg : Option Int)
    (templateId : String) (change : Int) (customLimit : Option Int) :
    Store.handleTemplateCountChange counts pkg templateId change customLimit =
      (if ((Store.setKey counts templateId
            (max 0 (Store.lookupCount counts templateId + change))).map Prod.snd).sum ≤
          customLimit.getD (pkg.getD 0)
        then Store.setKey counts templateId
          (max 0 (Store.lookupCount counts templateId + change))
        else counts) ∧
      ((∀ v ∈ counts.map Prod.snd, 0 ≤ v) →
        ∀ v ∈ (Store.handleTemplateCountChange counts pkg templateId change
          customLimit).map Prod.snd, 0 ≤ v) := by
  have hcond : (counts.map Prod.snd).sum - Store.lookupCount counts templateId +
      max 0 (Store.lookupCount counts templateId + change) =
      ((Store.setKey counts templateId
        (max 0 (Store.lookupCount counts templateId + change))).map Prod.snd).sum := by
    rw [sum_setKey]
  have hmain : Store.handleTemplateCountChange counts pkg templateId change customLimit =
      (if ((Store.setKey counts templateId
            (max 0 (Store.lookupCount counts templateId + change))).map Prod.snd).sum ≤
          customLimit.getD (pkg.getD 0)
        then Store.setKey counts templateId
          (max 0 (Store.lookupCount counts templateId + change))
        else counts) := by
    rcases customLimit with _ | c <;> rcases pkg with _ | p <;>
      (simp only [Store.handleTemplateCountChange, Option.getD_none, Option.getD_some];
        rw [hcond])
  refine ⟨hmain, fun hnn v hv => ?_⟩
  rw [hmain] at hv
  by_cases hle : ((Store.setKey counts templateId
        (max 0 (Store.lookupCount counts templateId + change))).map Prod.snd).sum ≤
      customLimit.getD (pkg.getD 0)
  · rw [if_pos hle] at hv
    rcases mem_setKey_snd hv with h | h
    · rw [h]
      exact le_max_left _ _
    · exact hnn v h
  · rw [if_neg hle] at hv
    exact hnn v hv

/-- C9 witness: adding 2 "collage" prints to a store holding 1 "solo" print
under a package limit of 3 applies the update, and all stored counts stay
non-negative. -/
theorem handleTemplateCountChange_spec_witness :
    Store.handleTemplateCountChange [("solo", 1)] (some 3) "collage" 2 none =
      (if ((Store.setKey [("solo", 1)] "collage"
            (max 0 (Store.lookupCount [("solo", 1)] "collage" + 2))).map Prod.snd).sum ≤
          (none : Option Int).getD ((some (3 : Int)).getD 0)
        then Store.setKey [("solo", 1)] "collage"
          (max 0 (Store.lookupCount [("solo", 1)] "collage" + 2))
        else [("solo", 1)]) ∧
      (0 : Int) ≤ 2 := by
  have h := handleTemplateCountChange_spec [("solo", 1)] (some 3) "collage" 2 none
  exact ⟨h.1, h.2 (by decide) 2 (by decide)⟩

end StoreClaims

section SwapClaims

/-- Helper: `findIndex` over a clean prefix followed by a matching element
yields the prefix length. -/
theorem findFirstIdx_after_clean_front {α : Type} (p : α → Bool) (pre : List α) (s0 : α)
    (rest : List α) (hpre : ∀ s ∈ pre, p s = false) (hs0 : p s0 = true) :
    Swap.findFirstIdx p (pre ++ s0 :: rest) = (pre.length : Int) := by
  induction pre with
  | nil => simp [Swap.findFirstIdx, hs0]
  | cons a pre' ih =>
      have ha : p a = false := hpre a (by simp)
      have ih' := ih (fun s hs => hpre s (by simp [hs]))
      simp only [List.cons_append, Swap.findFirstIdx, ha, Bool.false_eq_true, if_false,
        List.append_eq, ih']
      rw [if_neg (not_lt.mpr (Int.natCast_nonneg _))]
      rw [List.length_cons]
      push_cast
      ring

/-- Helper: match indices skip a clean prefix, shifting the start index by
its length. -/
theorem matchIndices_skip_clean_front {α : Type} (p : α → Bool) (pre l2 : List α)
    (hpre : ∀ s ∈ pre, p s = false) :
    ∀ i : ℕ, Swap.matchIndices p (pre ++ l2) i = Swap.matchIndices p l2 (i + pre.length) := by
  induction pre with
  | nil => intro i; simp
  | cons a pre' ih =>
      intro i
      have ha : p a = false := hpre a (by simp)
      have ih' := ih (fun s hs => hpre s (by simp [hs])) (i + 1)
      simp only [List.cons_append, Swap.matchIndices, ha, Bool.false_eq_true, if_false,
        List.append_eq, ih', List.length_cons]
      congr 1
      omega

/-- Helper: every match index is at least the start index. -/
theorem matchIndices_ge {α : Type} (p : α → Bool) :
    ∀ (l : List α) (i j : ℕ), j ∈ Swap.matchIndices p l i → i ≤ j := by
  intro l
  induction l with
  | nil => intro i j h; simp [Swap.matchIndices] at h
  | cons a t ih =>
      intro i j h
      rw [Swap.matchIndices] at h
      by_cases ha : p a = true
      · rw [if_pos ha] at h
        rcases List.mem_cons.mp h with h' | h'
        · omega
        · have := ih (i + 1) j h'
          omega
      · rw [if_neg ha] at h
        have := ih (i + 1) j h
        omega

/-- Helper: splicing at a within-bounds non-negative index is take/insert/drop. -/
theorem spliceInsert_natCast {α : Type} (l : List α) (k : ℕ) (items : List α)
    (hk : k ≤ l.length) :
    Swap.spliceInsert l (k : Int) items = l.take k ++ items ++ l.drop k := by
  rw [Swap.spliceInsert, if_neg (not_lt.mpr (Int.natCast_nonneg _)), Int.toNat_natCast,
    min_eq_left hk]

/-- Helper: a filter partitions the length of a list. -/
theorem length_filter_split {α : Type} (p : α → Bool) (l : List α) :
    (l.filter p).length + (l.filter (fun a => !(p a))).length = l.length := by
  induction l with
  | nil => rfl
  | cons a t ih =>
      by_cases h : p a = true <;> simp [List.filter_cons, h] <;> omega

/-- C10 (amended): `handleConfirmSwap` preserves every slot of other
templates unchanged and in order: with the swapped template's slots located
at a clean prefix boundary, the result is the prefix of other templates'
slots, then exactly `newSlotsCountOf newTemplate` new slots
(`holes_data.length`; 1 when `holes_data` is absent or empty) at the
position of the first old slot, then the remaining other templates' slots;
the length is the original minus the old slot count plus the new slot count;
new slot `i` keeps old slot `i`'s `photoId` and `transform` except that,
when the new template has fewer slots and old slot 0 has no truthy photo,
new slot 0 takes the first photo-bearing old slot's photo and transform. -/
theorem handleConfirmSwap_slot_surgery (pre : List Swap.TemplateSlot)
    (s0 : Swap.TemplateSlot) (rest : List Swap.TemplateSlot) (swapId swapName : String)
    (swapSlots : List Swap.TemplateSlot) (newTemplate : Swap.ManualTemplate) (now : ℕ)
    (hpre : ∀ s ∈ pre, (s.templateId == swapId) = false)
    (hs0 : (s0.templateId == swapId) = true)
    (hswap : swapSlots = (pre ++ s0 :: rest).filter (fun s => s.templateId == swapId)) :
    Swap.handleConfirmSwap (pre ++ s0 :: rest) swapId swapName swapSlots newTemplate now =
      pre ++ Swap.newSlotsOf (pre ++ s0 :: rest) swapId swapName swapSlots newTemplate now ++
        rest.filter (fun s => !(s.templateId == swapId)) ∧
      (Swap.handleConfirmSwap (pre ++ s0 :: rest) swapId swapName swapSlots newTemplate
          now).length =
        (pre ++ s0 :: rest).length - swapSlots.length + Swap.newSlotsCountOf newTemplate ∧
      (∀ i : ℕ, i < Swap.newSlotsCountOf newTemplate →
        ¬(Swap.newSlotsCountOf newTemplate < swapSlots.length ∧
          Swap.optStrTruthy ((swapSlots.get? i).bind Swap.TemplateSlot.photoId) = false ∧
          i = 0) →
        ((Swap.newSlotsOf (pre ++ s0 :: rest) swapId swapName swapSlots newTemplate
            now).get? i).map Swap.TemplateSlot.photoId =
          some ((swapSlots.get? i).bind Swap.TemplateSlot.photoId) ∧
        ((Swap.newSlotsOf (pre ++ s0 :: rest) swapId swapName swapSlots newTemplate
            now).get? i).map Swap.TemplateSlot.transform =
          some ((swapSlots.get? i).bind Swap.TemplateSlot.transform)) ∧
      (∀ fs : Swap.TemplateSlot, Swap.newSlotsCountOf newTemplate < swapSlots.length →
        Swap.optStrTruthy ((swapSlots.get? 0).bind Swap.TemplateSlot.photoId) = false →
        swapSlots.find? (fun s => Swap.optStrTruthy s.photoId) = some fs →
        ((Swap.newSlotsOf (pre ++ s0 :: rest) swapId swapName swapSlots newTemplate
            now).get? 0).map Swap.TemplateSlot.photoId = some fs.photoId ∧
        ((Swap.newSlotsOf (pre ++ s0 :: rest) swapId swapName swapSlots newTemplate
            now).get? 0).map Swap.TemplateSlot.transform = some fs.transform) := by
  have hfirst : Swap.findFirstIdx (fun s => s.templateId == swapId) (pre ++ s0 :: rest) =
      (pre.length : Int) := findFirstIdx_after_clean_front _ pre s0 rest hpre hs0
  have hmi : Swap.matchIndices (fun s => s.templateId == swapId) (pre ++ s0 :: rest) 0 =
      Swap.matchIndices (fun s => s.templateId == swapId) (s0 :: rest) pre.length := by
    rw [matchIndices_skip_clean_front _ pre _ hpre 0, Nat.zero_add]
  have hremove : (Swap.matchIndices (fun s => s.templateId == swapId)
      (pre ++ s0 :: rest) 0).filter
        (fun i : ℕ => decide ((i : Int) < (pre.length : Int))) = [] := by
    rw [hmi]
    apply List.filter_eq_nil.mpr
    intro j hj
    have hge := matchIndices_ge _ _ _ _ hj
    simp only [decide_eq_true_eq]
    omega
  have hfilter : (pre ++ s0 :: rest).filter (fun s => !(s.templateId == swapId)) =
      pre ++ rest.filter (fun s => !(s.templateId == swapId)) := by
    rw [List.filter_append]
    congr 1
    · apply List.filter_eq_self.mpr
      intro s hs
      rw [hpre s hs]
      rfl
    · simp [List.filter_cons, hs0]
  have hlen_pre : pre.length ≤
      (pre ++ rest.filter (fun s => !(s.templateId == swapId))).length := by
    simp [List.length_append]
  have heq : Swap.handleConfirmSwap (pre ++ s0 :: rest) swapId swapName swapSlots
      newTemplate now =
      pre ++ Swap.newSlotsOf (pre ++ s0 :: rest) swapId swapName swapSlots newTemplate now ++
        rest.filter (fun s => !(s.templateId == swapId)) := by
    rw [Swap.handleConfirmSwap, hfirst, hremove, hfilter]
    simp only [List.length_nil, Nat.cast_zero, sub_zero]
    rw [spliceInsert_natCast _ pre.length _ hlen_pre, List.take_left, List.drop_left]
  have hswaplen : swapSlots.length =
      1 + (rest.filter (fun s => s.templateId == swapId)).length := by
    rw [hswap, List.filter_append]
    have h1 : pre.filter (fun s => s.templateId == swapId) = [] :=
      List.filter_eq_nil.mpr (fun s hs => by rw [hpre s hs]; simp)
    rw [h1]
    simp [hs0]
    omega
  have hlen2 : (Swap.handleConfirmSwap (pre ++ s0 :: rest) swapId swapName swapSlots
      newTemplate now).length =
      (pre ++ s0 :: rest).length - swapSlots.length + Swap.newSlotsCountOf newTemplate := by
    rw [heq]
    have hsplit := length_filter_split (fun s => s.templateId == swapId) rest
    simp only [List.length_append, Swap.newSlotsOf, List.length_map, List.length_range,
      List.length_cons]
    omega
  have hget : ∀ i : ℕ, i < Swap.newSlotsCountOf newTemplate →
      (Swap.newSlotsOf (pre ++ s0 :: rest) swapId swapName swapSlots newTemplate
        now).get? i =
        some (Swap.newSlotAt newTemplate swapId
          (Swap.newTemplateNameOf (pre ++ s0 :: rest) swapId swapName newTemplate)
          swapSlots (Swap.newSlotsCountOf newTemplate) swapSlots.length now i) := by
    intro i hi
    rw [Swap.newSlotsOf, List.get?_map, List.get?_range hi]
    rfl
  refine ⟨heq, hlen2, fun i hi hne => ?_, fun fs hlt htr hfind => ?_⟩
  · rw [hget i hi]
    constructor
    · rw [Option.map_some', Swap.newSlotAt, if_neg hne]
    · rw [Option.map_some', Swap.newSlotAt, if_neg hne]
  · have hn0 : 0 < Swap.newSlotsCountOf newTemplate := by
      rcases hhd : newTemplate.holes_data with _ | hs
      · simp [Swap.newSlotsCountOf, hhd]
      · simp only [Swap.newSlotsCountOf, hhd]
        split_ifs with h
        · omega
        · omega
    have hcond : Swap.newSlotsCountOf newTemplate < swapSlots.length ∧
        Swap.optStrTruthy ((swapSlots.get? 0).bind Swap.TemplateSlot.photoId) = false ∧
        (0 : ℕ) = 0 := ⟨hlt, htr, rfl⟩
    rw [hget 0 hn0]
    constructor
    · rw [Option.map_some', Swap.newSlotAt, if_pos hcond, hfind]
    · rw [Option.map_some', Swap.newSlotAt, if_pos hcond, hfind]

/-- C10 counterexample: the claim fails as stated on two concrete inputs.
First, with old slots `[slot 0 without photo, slot 1 with photo "P"]` swapped
to a one-hole template, the claim predicts new slot 0 keeps old slot 0's
absent photo, but the smart-preservation branch gives it slot 1's photo
"P".  Second, with `holes_data` present but empty the claim predicts
`holes_data.length = 0` new slots (resulting length 0), but
`holes_data?.length || 1` treats length 0 as falsy and produces 1 slot. -/
theorem handleConfirmSwap_counterexample :
    ((Swap.handleConfirmSwap
        [⟨"a", "T", "Temp", "collage", 0, none, none, some "4R"⟩,
          ⟨"b", "T", "Temp", "collage", 1, some "P", some ⟨1, 0, 0⟩, some "4R"⟩]
        "T" "Temp"
        [⟨"a", "T", "Temp", "collage", 0, none, none, some "4R"⟩,
          ⟨"b", "T", "Temp", "collage", 1, some "P", some ⟨1, 0, 0⟩, some "4R"⟩]
        ⟨"new", "Solo", "solo", "4R", some [⟨0, 0, 1, 1⟩]⟩ 7).head?).map
      Swap.TemplateSlot.photoId = some (some "P") ∧
    (Swap.handleConfirmSwap
        [⟨"a", "T", "Temp", "collage", 0, none, none, some "4R"⟩,
          ⟨"b", "T", "Temp", "collage", 1, some "P", some ⟨1, 0, 0⟩, some "4R"⟩]
        "T" "Temp"
        [⟨"a", "T", "Temp", "collage", 0, none, none, some "4R"⟩,
          ⟨"b", "T", "Temp", "collage", 1, some "P", some ⟨1, 0, 0⟩, some "4R"⟩]
        ⟨"new2", "Empty", "strip", "4R", some []⟩ 7).length = 1 := by
  constructor
  · decide
  · decide

/-- C10 witness: the amended surgery theorem applied to the same two-slot
swap: other-template slots (none here beyond the filtered remainder) are
preserved around the single new slot, and the exception clause gives the new
slot old slot 1's photo "P" and transform. -/
theorem handleConfirmSwap_slot_surgery_witness :
    Swap.handleConfirmSwap
        [⟨"a", "T", "Temp", "collage", 0, none, none, some "4R"⟩,
          ⟨"b", "T", "Temp", "collage", 1, some "P", some ⟨1, 0, 0⟩, some "4R"⟩]
        "T" "Temp"
        [⟨"a", "T", "Temp", "collage", 0, none, none, some "4R"⟩,
          ⟨"b", "T", "Temp", "collage", 1, some "P", some ⟨1, 0, 0⟩, some "4R"⟩]
        ⟨"new", "Solo", "solo", "4R", some [⟨0, 0, 1, 1⟩]⟩ 7 =
      [] ++ Swap.newSlotsOf
          [⟨"a", "T", "Temp", "collage", 0, none, none, some "4R"⟩,
            ⟨"b", "T", "Temp", "collage", 1, some "P", some ⟨1, 0, 0⟩, some "4R"⟩]
          "T" "Temp"
          [⟨"a", "T", "Temp", "collage", 0, none, none, some "4R"⟩,
            ⟨"b", "T", "Temp", "collage", 1, some "P", some ⟨1, 0, 0⟩, some "4R"⟩]
          ⟨"new", "Solo", "solo", "4R", some [⟨0, 0, 1, 1⟩]⟩ 7 ++
        List.filter (fun s => !(s.templateId == "T"))
          [⟨"b", "T", "Temp", "collage", 1, some "P", some ⟨1, 0, 0⟩, some "4R"⟩] ∧
      ((Swap.newSlotsOf
          [⟨"a", "T", "Temp", "collage", 0, none, none, some "4R"⟩,
            ⟨"b", "T", "Temp", "collage", 1, some "P", some ⟨1, 0, 0⟩, some "4R"⟩]
          "T" "Temp"
          [⟨"a", "T", "Temp", "collage", 0, none, none, some "4R"⟩,
            ⟨"b", "T", "Temp", "collage", 1, some "P", some ⟨1, 0, 0⟩, some "4R"⟩]
          ⟨"new", "Solo", "solo", "4R", some [⟨0, 0, 1, 1⟩]⟩ 7).get? 0).map
        Swap.TemplateSlot.photoId = some (some "P") := by
  have h := handleConfirmSwap_slot_surgery []
    ⟨"a", "T", "Temp", "collage", 0, none, none, some "4R"⟩
    [⟨"b", "T", "Temp", "collage", 1, some "P", some ⟨1, 0, 0⟩, some "4R"⟩] "T" "Temp"
    [⟨"a", "T", "Temp", "collage", 0, none, none, some "4R"⟩,
      ⟨"b", "T", "Temp", "collage", 1, some "P", some ⟨1, 0, 0⟩, some "4R"⟩]
    ⟨"new", "Solo", "solo", "4R", some [⟨0, 0, 1, 1⟩]⟩ 7
    (by simp) (by decide) (by decide)
  exact ⟨h.1,
    (h.2.2.2 ⟨"b", "T", "Temp", "collage", 1, some "P", some ⟨1, 0, 0⟩, some "4R"⟩
      (by decide) (by decide) (by decide)).1⟩

end SwapClaims
